/-
Verification of the event-driven transaction processing system
(Go sources: api transaction service/handler, outbox publisher, worker
consumer and processor, API-key middleware) against its specification.

The Go code is shallowly embedded: database state is an explicit record of
row lists, `uuid.New()` values are passed in as explicit fresh identifiers,
and each operation is a pure function from state to (result, state) whose
branch structure mirrors the source line by line.  Commit/rollback semantics
of the SQL transactions are made explicit: an operation that errors before
its commit returns the unchanged input state.
-/

import Mathlib

namespace TxnSystem

/-- UUIDs are modelled as naturals; `uuid.New()` is passed explicitly. -/
abbrev UUID := Nat

/-- shared/types: TransactionType (`DEBIT` / `CREDIT`). -/
inductive TransactionType where
  | DEBIT
  | CREDIT
deriving DecidableEq, Repr

/-- shared/types: TransactionStatus. -/
inductive TransactionStatus where
  | PENDING
  | PROCESSING
  | PROCESSED
  | FAILED
deriving DecidableEq, Repr

/-- shared/types: AccountStatus. -/
inductive AccountStatus where
  | ACTIVE
  | SUSPENDED
deriving DecidableEq, Repr

/-- shared/types: Account (row of `accounts`). -/
structure Account where
  id : UUID
  currency : String
  balanceCents : Int
  status : AccountStatus
deriving DecidableEq, Repr

/-- shared/types: Transaction (row of `transactions`). -/
structure Transaction where
  id : UUID
  accountId : UUID
  amountCents : Int
  currency : String
  type : TransactionType
  status : TransactionStatus
  idempotencyKey : String
  failureReason : Option String
  metadata : Option String
deriving DecidableEq, Repr

/-- shared/types: TransactionCreatedPayload. The serialized JSON payload is
modelled structurally (marshal/unmarshal round-trips are identities). -/
structure TransactionCreatedPayload where
  transactionId : UUID
  accountId : UUID
  amountCents : Int
  currency : String
  type : TransactionType
  idempotencyKey : String
  metadata : Option String
deriving DecidableEq, Repr

/-- shared/types: EventEnvelope. -/
structure EventEnvelope where
  eventId : UUID
  eventType : String
  idempotencyKey : String
  aggregateId : UUID
  payload : TransactionCreatedPayload
deriving DecidableEq, Repr

/-- Outbox row status (`PENDING` / `PUBLISHED`). -/
inductive OutboxStatus where
  | PENDING
  | PUBLISHED
deriving DecidableEq, Repr

/-- Row of `outbox_events`. -/
structure OutboxEvent where
  id : UUID
  aggregateType : String
  aggregateId : UUID
  eventType : String
  payload : TransactionCreatedPayload
  status : OutboxStatus
deriving DecidableEq, Repr

/-- The durable database state shared by the services: `processed_events`
(event ids), `accounts`, `transactions`, `outbox_events`. -/
structure DBState where
  processedEvents : List UUID
  accounts : List Account
  transactions : List Transaction
  outbox : List OutboxEvent
deriving DecidableEq, Repr

/-- `SELECT ... FROM accounts WHERE id = $1`. -/
def findAccount (accounts : List Account) (aid : UUID) : Option Account :=
  accounts.find? (fun a => a.id = aid)

/-- `SELECT ... FROM transactions WHERE id = $1`. -/
def findTransaction (txs : List Transaction) (tid : UUID) : Option Transaction :=
  txs.find? (fun t => t.id = tid)

/-- `UPDATE transactions SET status='PROCESSING' WHERE id=$1 AND status='PENDING'`. -/
def markProcessingIfPending (txs : List Transaction) (tid : UUID) : List Transaction :=
  txs.map (fun t =>
    if t.id = tid ∧ t.status = TransactionStatus.PENDING then
      { t with status := TransactionStatus.PROCESSING }
    else t)

/-- `UPDATE transactions SET status='PROCESSED' WHERE id=$1` (no status guard). -/
def markProcessed (txs : List Transaction) (tid : UUID) : List Transaction :=
  txs.map (fun t =>
    if t.id = tid then { t with status := TransactionStatus.PROCESSED } else t)

/-- `UPDATE transactions SET status='FAILED', failure_reason=$1 WHERE id=$2`. -/
def markFailed (txs : List Transaction) (tid : UUID) (reason : String) : List Transaction :=
  txs.map (fun t =>
    if t.id = tid then
      { t with status := TransactionStatus.FAILED, failureReason := some reason }
    else t)

/-- `UPDATE accounts SET balance_cents=$1 WHERE id=$2`. -/
def setBalance (accounts : List Account) (aid : UUID) (b : Int) : List Account :=
  accounts.map (fun a => if a.id = aid then { a with balanceCents := b } else a)

/-- Result of `ProcessTransactionCreated`: the Go `(shouldRetry bool, err error)`. -/
structure ProcessResult where
  shouldRetry : Bool
  err : Option String
deriving DecidableEq, Repr

/-- The `failure_reason` string written on insufficient balance,
`fmt.Sprintf("insufficient balance: current=%d, debit=%d", ...)`. -/
def insufficientBalanceReason (current debit : Int) : String :=
  "insufficient balance: current=" ++ toString current ++ ", debit=" ++ toString debit

/-- The error string of the currency-mismatch return,
`fmt.Errorf("currency mismatch: account=%s, transaction=%s", ...)`. -/
def currencyMismatchMsg (accountCur txCur : String) : String :=
  "currency mismatch: account=" ++ accountCur ++ ", transaction=" ++ txCur

/-- `newBalance := currentBalance ± amount` computed per direction
(`balance + amount` for CREDIT, `balance - amount` otherwise). -/
def newBalanceFor (currentBalance : Int) (p : TransactionCreatedPayload) : Int :=
  if p.type = TransactionType.CREDIT then
    currentBalance + p.amountCents
  else
    currentBalance - p.amountCents

/-- worker/internal/processor.ProcessTransactionCreated, embedded on the
happy-infrastructure path (no transient DB errors).  The deferred
`tx.Rollback()` of the Go code is reflected by returning the input state
unchanged on every pre-commit error return; the two `tx.Commit()` sites
(insufficient balance and success) return the mutated state.  The
`processed_events` insert and the guarded PENDING→PROCESSING update precede
the account lookup in the SQL transaction, so on the rollback paths they
leave no trace. -/
def processTransactionCreated (s : DBState) (envelope : EventEnvelope) :
    ProcessResult × DBState :=
  -- idempotency check against processed_events
  if envelope.eventId ∈ s.processedEvents then
    (⟨false, none⟩, s)
  else
    -- INSERT INTO processed_events ... ON CONFLICT DO NOTHING (fresh id: 1 row)
    -- UPDATE transactions SET status='PROCESSING' WHERE ... AND status='PENDING'
    -- SELECT balance_cents, currency FROM accounts WHERE id=$1 FOR UPDATE
    match findAccount s.accounts envelope.payload.accountId with
    | none => (⟨false, some "account not found"⟩, s)
    | some acct =>
      if acct.currency ≠ envelope.payload.currency then
        (⟨false, some (currencyMismatchMsg acct.currency envelope.payload.currency)⟩, s)
      else
        if newBalanceFor acct.balanceCents envelope.payload < 0 ∧
            envelope.payload.type = TransactionType.DEBIT then
          (⟨false, some ("insufficient balance: " ++
              insufficientBalanceReason acct.balanceCents envelope.payload.amountCents)⟩,
            { s with
                processedEvents := s.processedEvents ++ [envelope.eventId]
                transactions :=
                  markFailed
                    (markProcessingIfPending s.transactions envelope.payload.transactionId)
                    envelope.payload.transactionId
                    (insufficientBalanceReason acct.balanceCents envelope.payload.amountCents) })
        else
          (⟨false, none⟩,
            { s with
                processedEvents := s.processedEvents ++ [envelope.eventId]
                accounts := setBalance s.accounts envelope.payload.accountId
                  (newBalanceFor acct.balanceCents envelope.payload)
                transactions :=
                  markProcessed
                    (markProcessingIfPending s.transactions envelope.payload.transactionId)
                    envelope.payload.transactionId })

/-- Deliver the same envelope `k` times in sequence. -/
def deliverK (s : DBState) (envelope : EventEnvelope) : Nat → DBState
  | 0 => s
  | k + 1 => deliverK (processTransactionCreated s envelope).2 envelope k

/-- Balance of an account in a state (None when absent). -/
def balanceOf (s : DBState) (aid : UUID) : Option Int :=
  (findAccount s.accounts aid).map (fun a => a.balanceCents)

/-- Status of a transaction in a state (None when absent). -/
def statusOf (s : DBState) (tid : UUID) : Option TransactionStatus :=
  (findTransaction s.transactions tid).map (fun t => t.status)

/-- The balance delta the payload asks for, signed per direction. -/
def signedDelta (p : TransactionCreatedPayload) : Int :=
  if p.type = TransactionType.CREDIT then p.amountCents else -p.amountCents

/-! ### Generic lookup lemmas for the row-update helpers -/

theorem findTransaction_map (f : Transaction → Transaction)
    (hf : ∀ t, (f t).id = t.id) (txs : List Transaction) (tid : UUID) :
    findTransaction (txs.map f) tid = (findTransaction txs tid).map f := by
  unfold findTransaction
  rw [List.find?_map]
  have hp : ((fun t : Transaction => decide (t.id = tid)) ∘ f)
      = (fun t : Transaction => decide (t.id = tid)) := by
    funext t
    simp [Function.comp, hf]
  rw [hp]

theorem findAccount_map (f : Account → Account)
    (hf : ∀ a, (f a).id = a.id) (accounts : List Account) (aid : UUID) :
    findAccount (accounts.map f) aid = (findAccount accounts aid).map f := by
  unfold findAccount
  rw [List.find?_map]
  have hp : ((fun a : Account => decide (a.id = aid)) ∘ f)
      = (fun a : Account => decide (a.id = aid)) := by
    funext a
    simp [Function.comp, hf]
  rw [hp]

theorem findTransaction_id {txs : List Transaction} {tid : UUID} {t : Transaction}
    (h : findTransaction txs tid = some t) : t.id = tid := by
  have := List.find?_some h
  simpa using this

theorem findAccount_id {accounts : List Account} {aid : UUID} {a : Account}
    (h : findAccount accounts aid = some a) : a.id = aid := by
  have := List.find?_some h
  simpa using this

theorem findTransaction_markFailed {txs : List Transaction} {tid : UUID} {t : Transaction}
    (reason : String) (h : findTransaction txs tid = some t) :
    findTransaction (markFailed txs tid reason) tid
      = some { t with status := TransactionStatus.FAILED, failureReason := some reason } := by
  unfold markFailed
  rw [findTransaction_map _ (fun t => by split <;> rfl), h]
  have hid := findTransaction_id h
  simp [hid]

theorem findTransaction_markProcessed {txs : List Transaction} {tid : UUID} {t : Transaction}
    (h : findTransaction txs tid = some t) :
    findTransaction (markProcessed txs tid) tid
      = some { t with status := TransactionStatus.PROCESSED } := by
  unfold markProcessed
  rw [findTransaction_map _ (fun t => by split <;> rfl), h]
  have hid := findTransaction_id h
  simp [hid]

theorem findTransaction_markProcessingIfPending {txs : List Transaction} {tid : UUID}
    {t : Transaction} (h : findTransaction txs tid = some t) :
    findTransaction (markProcessingIfPending txs tid) tid
      = some (if t.status = TransactionStatus.PENDING then
          { t with status := TransactionStatus.PROCESSING } else t) := by
  unfold markProcessingIfPending
  rw [findTransaction_map _ (fun t => by split <;> rfl), h]
  have hid := findTransaction_id h
  by_cases hs : t.status = TransactionStatus.PENDING
  · simp [hid, hs]
  · simp [hid, hs]

theorem findAccount_setBalance {accounts : List Account} {aid : UUID} {a : Account}
    (b : Int) (h : findAccount accounts aid = some a) :
    findAccount (setBalance accounts aid b) aid = some { a with balanceCents := b } := by
  unfold setBalance
  rw [findAccount_map _ (fun a => by split <;> rfl), h]
  have hid := findAccount_id h
  simp [hid]

/-! ### Redelivery is a no-op -/

/-- An envelope whose id is already in `processed_events` is answered with
success and no state change: the dedup branch of `ProcessTransactionCreated`. -/
theorem process_mem_noop {s : DBState} {e : EventEnvelope}
    (h : e.eventId ∈ s.processedEvents) :
    processTransactionCreated s e = (⟨false, none⟩, s) := by
  unfold processTransactionCreated
  rw [if_pos h]

/-- Every run of `ProcessTransactionCreated` either rolls back (state
unchanged) or durably records the envelope id in `processed_events`. -/
theorem process_state_cases (s : DBState) (e : EventEnvelope) :
    (processTransactionCreated s e).2 = s ∨
      e.eventId ∈ (processTransactionCreated s e).2.processedEvents := by
  unfold processTransactionCreated
  split
  · exact Or.inl rfl
  · split
    · exact Or.inl rfl
    · split
      · exact Or.inl rfl
      · split
        · right
          simp
        · right
          simp

/-- The state after one delivery is a fixed point of redelivery. -/
theorem process_fixpoint (s : DBState) (e : EventEnvelope) :
    (processTransactionCreated (processTransactionCreated s e).2 e).2
      = (processTransactionCreated s e).2 := by
  rcases process_state_cases s e with h | h
  · rw [h]
    exact h
  · rw [process_mem_noop h]

theorem deliverK_of_fixpoint {t : DBState} {e : EventEnvelope}
    (hfix : (processTransactionCreated t e).2 = t) :
    ∀ k, deliverK t e k = t
  | 0 => rfl
  | k + 1 => by
      unfold deliverK
      rw [hfix]
      exact deliverK_of_fixpoint hfix k

/-- K ≥ 1 deliveries of one envelope land in the same state as one delivery. -/
theorem deliverK_eq_first {s : DBState} {e : EventEnvelope} {k : Nat} (hk : 1 ≤ k) :
    deliverK s e k = (processTransactionCreated s e).2 := by
  obtain ⟨j, rfl⟩ : ∃ j, k = j + 1 := ⟨k - 1, (Nat.succ_pred_eq_of_pos hk).symm⟩
  show deliverK (processTransactionCreated s e).2 e j = (processTransactionCreated s e).2
  exact deliverK_of_fixpoint (process_fixpoint s e) j

/-! ### Branch equations for `processTransactionCreated` -/

theorem process_eq_accountNotFound {s : DBState} {e : EventEnvelope}
    (hne : e.eventId ∉ s.processedEvents)
    (hacc : findAccount s.accounts e.payload.accountId = none) :
    processTransactionCreated s e = (⟨false, some "account not found"⟩, s) := by
  unfold processTransactionCreated
  rw [if_neg hne, hacc]

theorem process_eq_currencyMismatch {s : DBState} {e : EventEnvelope} {acct : Account}
    (hne : e.eventId ∉ s.processedEvents)
    (hacc : findAccount s.accounts e.payload.accountId = some acct)
    (hcur : acct.currency ≠ e.payload.currency) :
    processTransactionCreated s e
      = (⟨false, some (currencyMismatchMsg acct.currency e.payload.currency)⟩, s) := by
  unfold processTransactionCreated
  rw [if_neg hne, hacc]
  simp only [ne_eq, hcur, not_false_eq_true, if_true]

theorem process_eq_insufficient {s : DBState} {e : EventEnvelope} {acct : Account}
    (hne : e.eventId ∉ s.processedEvents)
    (hacc : findAccount s.accounts e.payload.accountId = some acct)
    (hcur : acct.currency = e.payload.currency)
    (hins : newBalanceFor acct.balanceCents e.payload < 0 ∧
      e.payload.type = TransactionType.DEBIT) :
    processTransactionCreated s e
      = (⟨false, some ("insufficient balance: " ++
            insufficientBalanceReason acct.balanceCents e.payload.amountCents)⟩,
          { s with
              processedEvents := s.processedEvents ++ [e.eventId]
              transactions :=
                markFailed
                  (markProcessingIfPending s.transactions e.payload.transactionId)
                  e.payload.transactionId
                  (insufficientBalanceReason acct.balanceCents e.payload.amountCents) }) := by
  unfold processTransactionCreated
  rw [if_neg hne, hacc]
  dsimp only
  rw [if_neg (show ¬(acct.currency ≠ e.payload.currency) by simp [hcur])]
  rw [if_pos hins]

theorem process_eq_success {s : DBState} {e : EventEnvelope} {acct : Account}
    (hne : e.eventId ∉ s.processedEvents)
    (hacc : findAccount s.accounts e.payload.accountId = some acct)
    (hcur : acct.currency = e.payload.currency)
    (hok : ¬(newBalanceFor acct.balanceCents e.payload < 0 ∧
      e.payload.type = TransactionType.DEBIT)) :
    processTransactionCreated s e
      = (⟨false, none⟩,
          { s with
              processedEvents := s.processedEvents ++ [e.eventId]
              accounts := setBalance s.accounts e.payload.accountId
                (newBalanceFor acct.balanceCents e.payload)
              transactions :=
                markProcessed
                  (markProcessingIfPending s.transactions e.payload.transactionId)
                  e.payload.transactionId }) := by
  unfold processTransactionCreated
  rw [if_neg hne, hacc]
  dsimp only
  rw [if_neg (show ¬(acct.currency ≠ e.payload.currency) by simp [hcur])]
  rw [if_neg hok]

theorem newBalanceFor_eq_add_signedDelta (b : Int) (p : TransactionCreatedPayload) :
    newBalanceFor b p = b + signedDelta p := by
  by_cases h : p.type = TransactionType.CREDIT <;>
    simp [newBalanceFor, signedDelta, h, sub_eq_add_neg]

/-- C1: for an envelope delivered K ≥ 1 times to the Applier whose transaction
row starts PENDING, the K deliveries end in the state of the first delivery;
the balance delta over all K deliveries is exactly the payload's signed amount
when the transaction ends PROCESSED and zero when it ends FAILED;
`processed_events` holds at most one row for the envelope id (exactly one in
the terminal cases); and a delivery that finds the envelope id already
recorded returns success with no database writes. -/
theorem applier_exactly_once_effect (s : DBState) (e : EventEnvelope) (k : Nat)
    (hk : 1 ≤ k)
    (t0 : Transaction)
    (ht : findTransaction s.transactions e.payload.transactionId = some t0)
    (hp : t0.status = TransactionStatus.PENDING) :
    (e.eventId ∈ s.processedEvents →
      processTransactionCreated s e = (⟨false, none⟩, s)) ∧
    (e.eventId ∉ s.processedEvents →
      deliverK s e k = (processTransactionCreated s e).2 ∧
      ((processTransactionCreated s e).2.processedEvents.count e.eventId ≤ 1) ∧
      (statusOf (processTransactionCreated s e).2 e.payload.transactionId
          = some TransactionStatus.PROCESSED →
        balanceOf (processTransactionCreated s e).2 e.payload.accountId
          = (balanceOf s e.payload.accountId).map (fun b => b + signedDelta e.payload) ∧
        (processTransactionCreated s e).2.processedEvents.count e.eventId = 1) ∧
      (statusOf (processTransactionCreated s e).2 e.payload.transactionId
          = some TransactionStatus.FAILED →
        balanceOf (processTransactionCreated s e).2 e.payload.accountId
          = balanceOf s e.payload.accountId ∧
        (processTransactionCreated s e).2.processedEvents.count e.eventId = 1)) := by
  refine ⟨fun hmem => process_mem_noop hmem, fun hne => ?_⟩
  have hcnt0 : s.processedEvents.count e.eventId = 0 := List.count_eq_zero.mpr hne
  have hstat0 : statusOf s e.payload.transactionId = some TransactionStatus.PENDING := by
    simp [statusOf, ht, hp]
  refine ⟨deliverK_eq_first hk, ?_⟩
  rcases hacc : findAccount s.accounts e.payload.accountId with _ | acct
  · -- account row missing: full rollback, transaction still PENDING
    rw [process_eq_accountNotFound hne hacc]
    refine ⟨by rw [hcnt0]; exact Nat.zero_le 1, ?_, ?_⟩
    · intro hps
      have := hstat0.symm.trans hps
      simp at this
    · intro hf
      have := hstat0.symm.trans hf
      simp at this
  · by_cases hcur : acct.currency = e.payload.currency
    · by_cases hins : newBalanceFor acct.balanceCents e.payload < 0 ∧
          e.payload.type = TransactionType.DEBIT
      · -- insufficient balance: FAILED committed, balance untouched
        rw [process_eq_insufficient hne hacc hcur hins]
        have h1 := findTransaction_markProcessingIfPending ht
        have h2 := findTransaction_markFailed
          (insufficientBalanceReason acct.balanceCents e.payload.amountCents) h1
        have hcnt1 : (s.processedEvents ++ [e.eventId]).count e.eventId = 1 := by
          simp [List.count_append, hcnt0]
        refine ⟨Nat.le_of_eq hcnt1, ?_, ?_⟩
        · intro hps
          simp only [statusOf, h2, Option.map] at hps
          simp at hps
        · intro _
          exact ⟨rfl, hcnt1⟩
      · -- success: balance mutated by the signed amount, PROCESSED committed
        rw [process_eq_success hne hacc hcur hins]
        have h1 := findTransaction_markProcessingIfPending ht
        have h2 := findTransaction_markProcessed h1
        have hbal := findAccount_setBalance (newBalanceFor acct.balanceCents e.payload) hacc
        have hcnt1 : (s.processedEvents ++ [e.eventId]).count e.eventId = 1 := by
          simp [List.count_append, hcnt0]
        refine ⟨Nat.le_of_eq hcnt1, ?_, ?_⟩
        · intro _
          refine ⟨?_, hcnt1⟩
          simp only [balanceOf, hbal, hacc, Option.map]
          rw [newBalanceFor_eq_add_signedDelta]
        · intro hf
          simp only [statusOf, h2, Option.map] at hf
          simp at hf
    · -- currency mismatch: full rollback, transaction still PENDING
      rw [process_eq_currencyMismatch hne hacc hcur]
      refine ⟨by rw [hcnt0]; exact Nat.zero_le 1, ?_, ?_⟩
      · intro hps
        have := hstat0.symm.trans hps
        simp at this
      · intro hf
        have := hstat0.symm.trans hf
        simp at this

/-- Concrete account used by the claim witnesses. -/
def wAccount : Account :=
  { id := 1, currency := "USD", balanceCents := 100, status := AccountStatus.ACTIVE }

/-- Concrete PENDING transaction used by the claim witnesses. -/
def wTxn : Transaction :=
  { id := 2, accountId := 1, amountCents := 30, currency := "USD",
    type := TransactionType.CREDIT, status := TransactionStatus.PENDING,
    idempotencyKey := "k1", failureReason := none, metadata := none }

/-- Concrete payload matching `wTxn`. -/
def wPayload : TransactionCreatedPayload :=
  { transactionId := 2, accountId := 1, amountCents := 30, currency := "USD",
    type := TransactionType.CREDIT, idempotencyKey := "k1", metadata := none }

/-- Concrete envelope carrying `wPayload`. -/
def wEnvelope : EventEnvelope :=
  { eventId := 7, eventType := "transaction.created", idempotencyKey := "k1",
    aggregateId := 2, payload := wPayload }

/-- Concrete database state used by the claim witnesses. -/
def wState : DBState :=
  { processedEvents := [], accounts := [wAccount], transactions := [wTxn], outbox := [] }

/-- Witness for C1 at a concrete state, envelope and K = 2. -/
theorem applier_exactly_once_effect_witness :
    (1 ≤ 2) ∧
    (findTransaction wState.transactions wEnvelope.payload.transactionId = some wTxn) ∧
    (wTxn.status = TransactionStatus.PENDING) ∧
    ((wEnvelope.eventId ∈ wState.processedEvents →
      processTransactionCreated wState wEnvelope = (⟨false, none⟩, wState)) ∧
    (wEnvelope.eventId ∉ wState.processedEvents →
      deliverK wState wEnvelope 2 = (processTransactionCreated wState wEnvelope).2 ∧
      ((processTransactionCreated wState wEnvelope).2.processedEvents.count
        wEnvelope.eventId ≤ 1) ∧
      (statusOf (processTransactionCreated wState wEnvelope).2
          wEnvelope.payload.transactionId = some TransactionStatus.PROCESSED →
        balanceOf (processTransactionCreated wState wEnvelope).2
            wEnvelope.payload.accountId
          = (balanceOf wState wEnvelope.payload.accountId).map
              (fun b => b + signedDelta wEnvelope.payload) ∧
        (processTransactionCreated wState wEnvelope).2.processedEvents.count
          wEnvelope.eventId = 1) ∧
      (statusOf (processTransactionCreated wState wEnvelope).2
          wEnvelope.payload.transactionId = some TransactionStatus.FAILED →
        balanceOf (processTransactionCreated wState wEnvelope).2
            wEnvelope.payload.accountId
          = balanceOf wState wEnvelope.payload.accountId ∧
        (processTransactionCreated wState wEnvelope).2.processedEvents.count
          wEnvelope.eventId = 1))) :=
  ⟨by decide, by rfl, by rfl,
    applier_exactly_once_effect wState wEnvelope 2 (by decide) wTxn (by rfl) (by rfl)⟩

/-- C4: when the Applier applies a DEBIT whose amount exceeds the current
balance, it marks the transaction FAILED with a failure_reason recording the
current balance and attempted amount, commits that write together with the
`processed_events` row, returns non-retryable, and leaves the account
balances unchanged. -/
theorem insufficient_balance_marks_failed (s : DBState) (e : EventEnvelope)
    (acct : Account) (t0 : Transaction)
    (hne : e.eventId ∉ s.processedEvents)
    (ht : findTransaction s.transactions e.payload.transactionId = some t0)
    (hacc : findAccount s.accounts e.payload.accountId = some acct)
    (hcur : acct.currency = e.payload.currency)
    (hdebit : e.payload.type = TransactionType.DEBIT)
    (hneg : acct.balanceCents - e.payload.amountCents < 0) :
    (processTransactionCreated s e).1
      = ⟨false, some ("insufficient balance: " ++
          insufficientBalanceReason acct.balanceCents e.payload.amountCents)⟩ ∧
    statusOf (processTransactionCreated s e).2 e.payload.transactionId
      = some TransactionStatus.FAILED ∧
    (findTransaction (processTransactionCreated s e).2.transactions
        e.payload.transactionId).map (fun t => t.failureReason)
      = some (some (insufficientBalanceReason acct.balanceCents e.payload.amountCents)) ∧
    (processTransactionCreated s e).2.accounts = s.accounts ∧
    e.eventId ∈ (processTransactionCreated s e).2.processedEvents := by
  have hnb : newBalanceFor acct.balanceCents e.payload
      = acct.balanceCents - e.payload.amountCents := by
    simp [newBalanceFor, hdebit]
  have hins : newBalanceFor acct.balanceCents e.payload < 0 ∧
      e.payload.type = TransactionType.DEBIT := ⟨hnb ▸ hneg, hdebit⟩
  rw [process_eq_insufficient hne hacc hcur hins]
  have h1 := findTransaction_markProcessingIfPending ht
  have h2 := findTransaction_markFailed
    (insufficientBalanceReason acct.balanceCents e.payload.amountCents) h1
  refine ⟨rfl, ?_, ?_, rfl, by simp⟩
  · simp [statusOf, h2]
  · simp [h2]

/-- Witness for C4 at a concrete state: USD account with balance 100,
DEBIT of 200 on its PENDING transaction. -/
def c4Payload : TransactionCreatedPayload :=
  { transactionId := 2, accountId := 1, amountCents := 200, currency := "USD",
    type := TransactionType.DEBIT, idempotencyKey := "k4", metadata := none }

/-- Concrete envelope carrying the oversized debit of `c4Payload`. -/
def c4Envelope : EventEnvelope :=
  { eventId := 11, eventType := "transaction.created", idempotencyKey := "k4",
    aggregateId := 2, payload := c4Payload }

/-- Witness for C4. -/
theorem insufficient_balance_marks_failed_witness :
    (c4Envelope.eventId ∉ wState.processedEvents) ∧
    (findTransaction wState.transactions c4Envelope.payload.transactionId = some wTxn) ∧
    (findAccount wState.accounts c4Envelope.payload.accountId = some wAccount) ∧
    (wAccount.currency = c4Envelope.payload.currency) ∧
    (c4Envelope.payload.type = TransactionType.DEBIT) ∧
    (wAccount.balanceCents - c4Envelope.payload.amountCents < 0) ∧
    ((processTransactionCreated wState c4Envelope).1
        = ⟨false, some ("insufficient balance: " ++
            insufficientBalanceReason wAccount.balanceCents
              c4Envelope.payload.amountCents)⟩ ∧
      statusOf (processTransactionCreated wState c4Envelope).2
          c4Envelope.payload.transactionId = some TransactionStatus.FAILED ∧
      (findTransaction (processTransactionCreated wState c4Envelope).2.transactions
          c4Envelope.payload.transactionId).map (fun t => t.failureReason)
        = some (some (insufficientBalanceReason wAccount.balanceCents
            c4Envelope.payload.amountCents)) ∧
      (processTransactionCreated wState c4Envelope).2.accounts = wState.accounts ∧
      c4Envelope.eventId ∈ (processTransactionCreated wState c4Envelope).2.processedEvents) :=
  ⟨by decide, by rfl, by rfl, by rfl, by rfl, by decide,
    insufficient_balance_marks_failed wState c4Envelope wAccount wTxn
      (by decide) (by rfl) (by rfl) (by rfl) (by rfl) (by decide)⟩

/-- Concrete envelope whose payload currency EUR differs from the USD account. -/
def c3Envelope : EventEnvelope :=
  { eventId := 8, eventType := "transaction.created", idempotencyKey := "k1",
    aggregateId := 2, payload := { wPayload with currency := "EUR" } }

/-- C3 counterexample: on a currency mismatch the Applier does NOT mark the
transaction FAILED — the whole DB transaction rolls back, the transaction row
stays PENDING and nothing is committed; only the non-retryable return happens. -/
theorem currency_mismatch_leaves_pending :
    processTransactionCreated wState c3Envelope
      = (⟨false, some (currencyMismatchMsg "USD" "EUR")⟩, wState) ∧
    statusOf (processTransactionCreated wState c3Envelope).2
      c3Envelope.payload.transactionId = some TransactionStatus.PENDING ∧
    statusOf (processTransactionCreated wState c3Envelope).2
      c3Envelope.payload.transactionId ≠ some TransactionStatus.FAILED ∧
    (processTransactionCreated wState c3Envelope).2.processedEvents = [] := by
  refine ⟨?_, by decide, by decide, by decide⟩
  decide

/-- C3 amended: on a terminal business failure other than insufficient balance
(account row missing, or currency mismatch) the Applier returns non-retryable
with an error, but performs no database writes at all: the DB transaction
rolls back, the transaction row keeps its prior status (it is not marked
FAILED) and the envelope id is not recorded. -/
theorem terminal_business_failure_rolls_back (s : DBState) (e : EventEnvelope)
    (hne : e.eventId ∉ s.processedEvents)
    (hbad : findAccount s.accounts e.payload.accountId = none ∨
      ∃ acct, findAccount s.accounts e.payload.accountId = some acct ∧
        acct.currency ≠ e.payload.currency) :
    ∃ msg, processTransactionCreated s e = (⟨false, some msg⟩, s) := by
  rcases hbad with hacc | ⟨acct, hacc, hcur⟩
  · exact ⟨_, process_eq_accountNotFound hne hacc⟩
  · exact ⟨_, process_eq_currencyMismatch hne hacc hcur⟩

/-- Witness for the amended C3 at the concrete mismatch input. -/
theorem terminal_business_failure_rolls_back_witness :
    (c3Envelope.eventId ∉ wState.processedEvents) ∧
    (findAccount wState.accounts c3Envelope.payload.accountId = none ∨
      ∃ acct, findAccount wState.accounts c3Envelope.payload.accountId = some acct ∧
        acct.currency ≠ c3Envelope.payload.currency) ∧
    (∃ msg, processTransactionCreated wState c3Envelope = (⟨false, some msg⟩, wState)) :=
  ⟨by decide, Or.inr ⟨wAccount, by rfl, by decide⟩,
    terminal_business_failure_rolls_back wState c3Envelope (by decide)
      (Or.inr ⟨wAccount, by rfl, by decide⟩)⟩

/-- Transaction already in the terminal FAILED status. -/
def c8Txn : Transaction :=
  { wTxn with
      status := TransactionStatus.FAILED
      failureReason := some "insufficient balance: current=100, debit=200" }

/-- State holding the FAILED transaction `c8Txn`. -/
def c8State : DBState :=
  { wState with transactions := [c8Txn] }

/-- A second envelope for the same transaction under a fresh envelope id. -/
def c8Envelope : EventEnvelope :=
  { wEnvelope with eventId := 9 }

/-- C8: demonstration of the code bug.  The final
`UPDATE transactions SET status='PROCESSED' WHERE id=$1` has no status guard,
so a second envelope with a fresh envelope id referring to a transaction
already in the terminal FAILED status moves it back to PROCESSED and applies
the balance delta again — contradicting the spec's state-machine
monotonicity invariant. -/
theorem failed_transaction_flips_to_processed :
    statusOf c8State c8Envelope.payload.transactionId
      = some TransactionStatus.FAILED ∧
    (c8Envelope.eventId ∉ c8State.processedEvents) ∧
    statusOf (processTransactionCreated c8State c8Envelope).2
      c8Envelope.payload.transactionId = some TransactionStatus.PROCESSED ∧
    balanceOf (processTransactionCreated c8State c8Envelope).2
      c8Envelope.payload.accountId = some 130 := by
  refine ⟨by decide, by decide, ?_, ?_⟩ <;> decide

/-! ### Worker consumer: retry loop, DLQ, offset commit
(worker/internal/consumer/kafka_consumer.go) -/

/-- A Kafka message as fetched by the consumer (raw value bytes opaque). -/
structure ConsumedMessage where
  key : String
  value : String
  headers : List (String × String)
  partition : Int
  offset : Int
deriving DecidableEq, Repr

/-- sendToDLQ's message: original key/value/headers with the three
diagnostic headers appended. -/
def mkDLQMessage (msg : ConsumedMessage) (reason : String) : ConsumedMessage :=
  { msg with
      headers := msg.headers ++
        [("dlq_reason", reason),
         ("original_partition", toString msg.partition),
         ("original_offset", toString msg.offset)] }

/-- Observable consumer side effects, in program order. -/
inductive ConsumerAction where
  | dlqWrite (m : ConsumedMessage)
  | commitOffset
deriving DecidableEq, Repr

/-- The Go retry loop
`for attempt := 0; attempt < maxRetries && shouldRetry; attempt++`,
with the attempt outcomes supplied as a function; returns the final
`(shouldRetry, lastErr)` pair. -/
def retryLoopGo (outcomes : Nat → ProcessResult) :
    Nat → Nat → Bool → Option String → Bool × Option String
  | _, 0, sr, le => (sr, le)
  | attempt, r + 1, sr, le =>
    if sr then
      retryLoopGo outcomes (attempt + 1) r
        (outcomes attempt).shouldRetry (outcomes attempt).err
    else (sr, le)

/-- Run the retry loop from its initial state `shouldRetry=true, lastErr=nil`. -/
def runRetryLoop (maxRetries : Nat) (outcomes : Nat → ProcessResult) :
    Bool × Option String :=
  retryLoopGo outcomes 0 maxRetries true none

/-- worker/internal/consumer.processMessage after a successfully parsed
envelope: run the retry loop; if retryable attempts are exhausted, write the
DLQ message and only then commit the offset; if the DLQ write fails, return
the error without committing; otherwise commit the offset.  `dlqOk` models
whether the DLQ `WriteMessages` call succeeds.  Returns the ordered action
list and the function's error result. -/
def processMessage (maxRetries : Nat) (outcomes : Nat → ProcessResult)
    (msg : ConsumedMessage) (dlqOk : Bool) : List ConsumerAction × Option String :=
  match runRetryLoop maxRetries outcomes with
  | (sr, le) =>
    if sr ∧ le.isSome then
      if dlqOk then
        ([ConsumerAction.dlqWrite (mkDLQMessage msg (le.getD "")),
          ConsumerAction.commitOffset], none)
      else
        ([], some "failed to write to DLQ")
    else
      ([ConsumerAction.commitOffset], none)

theorem retryLoopGo_all_retryable (outcomes : Nat → ProcessResult) :
    ∀ (r attempt : Nat) (le : Option String),
      (∀ i, i < r → (outcomes (attempt + i)).shouldRetry = true) →
      retryLoopGo outcomes attempt r true le
        = (true, if r = 0 then le else (outcomes (attempt + r - 1)).err)
  | 0, attempt, le, _ => rfl
  | r + 1, attempt, le, h => by
    have h0 : (outcomes attempt).shouldRetry = true := by
      simpa using h 0 (Nat.succ_pos r)
    have hrest : ∀ i, i < r → (outcomes (attempt + 1 + i)).shouldRetry = true := by
      intro i hi
      have := h (i + 1) (by omega)
      simpa [Nat.add_assoc, Nat.add_comm 1 i] using this
    unfold retryLoopGo
    rw [if_pos rfl, h0,
      retryLoopGo_all_retryable outcomes r (attempt + 1) (outcomes attempt).err hrest]
    rcases r with _ | r'
    · simp
    · have : attempt + 1 + (r' + 1) - 1 = attempt + (r' + 1 + 1) - 1 := by omega
      simp [this]

theorem runRetryLoop_exhausted (maxRetries : Nat) (outcomes : Nat → ProcessResult)
    (hmax : 1 ≤ maxRetries)
    (hall : ∀ i, i < maxRetries → (outcomes i).shouldRetry = true) :
    runRetryLoop maxRetries outcomes = (true, (outcomes (maxRetries - 1)).err) := by
  unfold runRetryLoop
  rw [retryLoopGo_all_retryable outcomes maxRetries 0 none (by simpa using hall)]
  have : maxRetries ≠ 0 := by omega
  simp [this]

/-- C7: when the Applier exhausts its retryable attempts, the original raw
message is published to the DLQ topic with the headers `dlq_reason`,
`original_partition` and `original_offset` appended, and the consumer offset
is committed only after the DLQ write succeeds; if the DLQ write fails, the
offset is not committed and the error is returned (the message will be
redelivered). -/
theorem dlq_before_offset_commit (maxRetries : Nat) (outcomes : Nat → ProcessResult)
    (msg : ConsumedMessage)
    (hmax : 1 ≤ maxRetries)
    (hall : ∀ i, i < maxRetries →
      (outcomes i).shouldRetry = true ∧ (outcomes i).err.isSome) :
    (∃ reason, (outcomes (maxRetries - 1)).err = some reason ∧
      processMessage maxRetries outcomes msg true
        = ([ConsumerAction.dlqWrite (mkDLQMessage msg reason),
            ConsumerAction.commitOffset], none)) ∧
    (processMessage maxRetries outcomes msg false).2.isSome ∧
    ConsumerAction.commitOffset ∉ (processMessage maxRetries outcomes msg false).1 := by
  have hloop := runRetryLoop_exhausted maxRetries outcomes hmax
    (fun i hi => (hall i hi).1)
  have hsome : (outcomes (maxRetries - 1)).err.isSome :=
    (hall (maxRetries - 1) (by omega)).2
  obtain ⟨reason, hreason⟩ := Option.isSome_iff_exists.mp hsome
  refine ⟨⟨reason, hreason, ?_⟩, ?_, ?_⟩
  · unfold processMessage
    rw [hloop]
    simp [hreason]
  · unfold processMessage
    rw [hloop]
    simp [hreason]
  · unfold processMessage
    rw [hloop]
    simp [hreason]

/-- Concrete message used by the C7 witness. -/
def c7Msg : ConsumedMessage :=
  { key := "2", value := "raw-bytes", headers := [("event_type", "transaction.created")],
    partition := 3, offset := 42 }

/-- Outcomes where every attempt fails with a retryable error. -/
def c7Outcomes : Nat → ProcessResult :=
  fun _ => ⟨true, some "db down"⟩

/-- Witness for C7 at maxRetries = 5 (the worker's configured value). -/
theorem dlq_before_offset_commit_witness :
    (1 ≤ 5) ∧
    (∀ i, i < 5 → (c7Outcomes i).shouldRetry = true ∧ (c7Outcomes i).err.isSome) ∧
    ((∃ reason, (c7Outcomes (5 - 1)).err = some reason ∧
      processMessage 5 c7Outcomes c7Msg true
        = ([ConsumerAction.dlqWrite (mkDLQMessage c7Msg reason),
            ConsumerAction.commitOffset], none)) ∧
    (processMessage 5 c7Outcomes c7Msg false).2.isSome ∧
    ConsumerAction.commitOffset ∉ (processMessage 5 c7Outcomes c7Msg false).1) :=
  ⟨by decide, fun i _ => ⟨rfl, rfl⟩,
    dlq_before_offset_commit 5 c7Outcomes c7Msg (by decide)
      (fun i _ => ⟨rfl, rfl⟩)⟩

/-! ### Relay: publishEvent (outbox publisher) -/

/-- A message as published to the log by the Relay. -/
structure PublishedMessage where
  key : String
  envelope : EventEnvelope
  headers : List (String × String)
deriving DecidableEq, Repr

/-- publisher.publishEvent: builds the envelope for an outbox row.  The Go
code calls `uuid.New()` for the envelope's `EventID`; that fresh random value
is the `freshEventId` argument.  The idempotency key is lifted out of the
payload for `transaction.created` events. -/
def publishEvent (event : OutboxEvent) (freshEventId : UUID) : PublishedMessage :=
  { key := toString event.aggregateId
    envelope :=
      { eventId := freshEventId
        eventType := event.eventType
        idempotencyKey :=
          if event.eventType = "transaction.created" then
            event.payload.idempotencyKey
          else ""
        aggregateId := event.aggregateId
        payload := event.payload }
    headers := [("event_type", event.eventType),
                ("aggregate_id", toString event.aggregateId)] }

/-- Concrete outbox row used by the C5 counterexample and witness. -/
def c5Row : OutboxEvent :=
  { id := 3, aggregateType := "transaction", aggregateId := 2,
    eventType := "transaction.created", payload := wPayload,
    status := OutboxStatus.PENDING }

/-- C5 counterexample: publishing the same outbox row twice (two calls to
`uuid.New()` returning distinct values 21 and 22) yields envelopes with
different event ids, and neither equals the outbox row id — the envelope id
is not derived from the outbox row id, so republishes do not share a dedup
key. -/
theorem republish_changes_dedup_key :
    (publishEvent c5Row 21).envelope.eventId ≠ (publishEvent c5Row 22).envelope.eventId ∧
    (publishEvent c5Row 21).envelope.eventId ≠ c5Row.id := by
  decide

/-- C5 amended: the Relay assigns each published envelope the freshly
generated `uuid.New()` value as its event id, independent of the outbox row
id; two publishes of the same row with distinct fresh uuids therefore carry
distinct dedup keys. -/
theorem relay_event_id_is_fresh (event : OutboxEvent) (f1 f2 : UUID) (hne : f1 ≠ f2) :
    (publishEvent event f1).envelope.eventId = f1 ∧
    (publishEvent event f1).envelope.eventId ≠ (publishEvent event f2).envelope.eventId := by
  exact ⟨rfl, by simpa using hne⟩

/-- Witness for the amended C5. -/
theorem relay_event_id_is_fresh_witness :
    ((21 : UUID) ≠ 22) ∧
    ((publishEvent c5Row 21).envelope.eventId = 21 ∧
      (publishEvent c5Row 21).envelope.eventId ≠ (publishEvent c5Row 22).envelope.eventId) :=
  ⟨by decide, relay_event_id_is_fresh c5Row 21 22 (by decide)⟩

/-! ### Ingress service: CreateTransaction (api/internal/service) -/

/-- shared/types: CreateTransactionRequest. -/
structure CreateTransactionRequest where
  accountId : UUID
  amountCents : Int
  currency : String
  type : TransactionType
  idempotencyKey : String
  metadata : Option String
deriving DecidableEq, Repr

/-- The idempotency lookup
`SELECT ... FROM transactions WHERE account_id=$1 AND idempotency_key=$2 LIMIT 1`. -/
def findByIdemKey (txs : List Transaction) (aid : UUID) (key : String) : Option Transaction :=
  txs.find? (fun t => t.accountId = aid ∧ t.idempotencyKey = key)

/-- The new PENDING transaction row inserted by CreateTransaction. -/
def mkTransactionRow (txId : UUID) (req : CreateTransactionRequest) : Transaction :=
  { id := txId, accountId := req.accountId, amountCents := req.amountCents,
    currency := req.currency, type := req.type,
    status := TransactionStatus.PENDING, idempotencyKey := req.idempotencyKey,
    failureReason := none, metadata := req.metadata }

/-- The outbox row inserted in the same DB transaction as a new transaction
row: aggregate "transaction"/transaction id, event type `transaction.created`,
payload built from the transaction, status PENDING. -/
def mkOutboxRow (outboxId : UUID) (t : Transaction) : OutboxEvent :=
  { id := outboxId, aggregateType := "transaction", aggregateId := t.id,
    eventType := "transaction.created",
    payload :=
      { transactionId := t.id, accountId := t.accountId,
        amountCents := t.amountCents, currency := t.currency, type := t.type,
        idempotencyKey := t.idempotencyKey, metadata := t.metadata },
    status := OutboxStatus.PENDING }

/-- api/internal/service.CreateTransaction, embedded on the
happy-infrastructure path.  `txId` and `outboxId` stand for the two
`uuid.New()` calls.  `raceWinner` models the one concurrency the code
handles explicitly: when it is `some (w, wOutboxId)`, a concurrent call with
the same `(account_id, idempotency_key)` committed the row `w` (and, in its
own DB transaction, the outbox row for `w`) between this call's idempotency
check and its insert, so the insert hits the unique constraint and the code
re-reads and returns the winning row.  Errors return the input state: the
deferred `tx.Rollback()` discards all writes made before `tx.Commit()`. -/
def createTransaction (s : DBState) (req : CreateTransactionRequest)
    (txId outboxId : UUID) (raceWinner : Option (Transaction × UUID)) :
    Except String Transaction × DBState :=
  match findByIdemKey s.transactions req.accountId req.idempotencyKey with
  | some existing => (Except.ok existing, s)
  | none =>
    match findAccount s.accounts req.accountId with
    | none => (Except.error "account not found", s)
    | some acct =>
      if acct.status ≠ AccountStatus.ACTIVE then
        (Except.error "account is not active", s)
      else if req.amountCents ≤ 0 then
        (Except.error "amount must be positive", s)
      else
        match raceWinner with
        | some (w, wOutboxId) =>
          (Except.ok w,
            { s with
                transactions := s.transactions ++ [w]
                outbox := s.outbox ++ [mkOutboxRow wOutboxId w] })
        | none =>
          (Except.ok (mkTransactionRow txId req),
            { s with
                transactions := s.transactions ++ [mkTransactionRow txId req]
                outbox := s.outbox ++ [mkOutboxRow outboxId (mkTransactionRow txId req)] })

/-- One call of the idempotency experiment: the request plus the call's
fresh uuids and its race interleaving. -/
structure CreateCall where
  req : CreateTransactionRequest
  txId : UUID
  outboxId : UUID
  raceWinner : Option (Transaction × UUID)
deriving Repr

/-- Run a sequence of CreateTransaction calls, collecting the results. -/
def runCreates (s : DBState) : List CreateCall → List (Except String Transaction) × DBState
  | [] => ([], s)
  | c :: cs =>
    ((createTransaction s c.req c.txId c.outboxId c.raceWinner).1 ::
        (runCreates (createTransaction s c.req c.txId c.outboxId c.raceWinner).2 cs).1,
      (runCreates (createTransaction s c.req c.txId c.outboxId c.raceWinner).2 cs).2)

/-- The rows matching one `(account_id, idempotency_key)` pair. -/
def matchingRows (txs : List Transaction) (aid : UUID) (key : String) : List Transaction :=
  txs.filter (fun t => t.accountId = aid ∧ t.idempotencyKey = key)

theorem createTransaction_replay {s : DBState} {req : CreateTransactionRequest}
    {w : Transaction} (txId outboxId : UUID) (raceWinner : Option (Transaction × UUID))
    (hfound : findByIdemKey s.transactions req.accountId req.idempotencyKey = some w) :
    createTransaction s req txId outboxId raceWinner = (Except.ok w, s) := by
  unfold createTransaction
  rw [hfound]

theorem runCreates_replay {a : UUID} {key : String} {w : Transaction} :
    ∀ (cs : List CreateCall) (s : DBState),
      (∀ c ∈ cs, c.req.accountId = a ∧ c.req.idempotencyKey = key) →
      findByIdemKey s.transactions a key = some w →
      runCreates s cs = (cs.map (fun _ => Except.ok w), s)
  | [], _, _, _ => rfl
  | c :: cs, s, hall, hfound => by
    have hc := hall c (List.mem_cons_self c cs)
    have hfound' : findByIdemKey s.transactions c.req.accountId c.req.idempotencyKey
        = some w := by
      rw [hc.1, hc.2]
      exact hfound
    have hrepl := createTransaction_replay c.txId c.outboxId c.raceWinner hfound'
    have hrest := runCreates_replay cs s
      (fun c' hc' => hall c' (List.mem_cons_of_mem _ hc')) hfound
    unfold runCreates
    rw [hrepl, hrest]
    rfl

theorem findByIdemKey_eq_none_of_matching_nil {txs : List Transaction} {a : UUID}
    {key : String} (h : matchingRows txs a key = []) :
    findByIdemKey txs a key = none := by
  unfold findByIdemKey
  rw [List.find?_eq_none]
  intro t htmem hmatch
  have : t ∈ matchingRows txs a key := List.mem_filter.mpr ⟨htmem, hmatch⟩
  rw [h] at this
  exact absurd this (List.not_mem_nil t)

theorem findByIdemKey_append_singleton {txs : List Transaction} {a : UUID}
    {key : String} {w : Transaction}
    (hnone : findByIdemKey txs a key = none)
    (hw : w.accountId = a ∧ w.idempotencyKey = key) :
    findByIdemKey (txs ++ [w]) a key = some w := by
  unfold findByIdemKey at hnone ⊢
  rw [List.find?_append, hnone]
  simp [hw.1, hw.2]

theorem matchingRows_append_singleton {txs : List Transaction} {a : UUID}
    {key : String} {w : Transaction}
    (hnil : matchingRows txs a key = [])
    (hw : w.accountId = a ∧ w.idempotencyKey = key) :
    matchingRows (txs ++ [w]) a key = [w] := by
  unfold matchingRows at hnil ⊢
  rw [List.filter_append, hnil]
  simp [hw.1, hw.2]

/-- The first call of the experiment commits exactly one matching row: either
its own fresh insert or, if it lost the insert race, the concurrent winner. -/
theorem createTransaction_first_insert {s0 : DBState} {req : CreateTransactionRequest}
    {acct : Account} (txId outboxId : UUID) (raceWinner : Option (Transaction × UUID))
    (hnofind : findByIdemKey s0.transactions req.accountId req.idempotencyKey = none)
    (hacct : findAccount s0.accounts req.accountId = some acct)
    (hactive : acct.status = AccountStatus.ACTIVE)
    (hamt : ¬(req.amountCents ≤ 0))
    (hracewf : ∀ w oid, raceWinner = some (w, oid) →
      w.accountId = req.accountId ∧ w.idempotencyKey = req.idempotencyKey) :
    ∃ w ob, w.accountId = req.accountId ∧ w.idempotencyKey = req.idempotencyKey ∧
      createTransaction s0 req txId outboxId raceWinner
        = (Except.ok w, { s0 with transactions := s0.transactions ++ [w], outbox := ob }) := by
  rcases hw : raceWinner with _ | ⟨w, oid⟩
  · refine ⟨mkTransactionRow txId req,
      s0.outbox ++ [mkOutboxRow outboxId (mkTransactionRow txId req)], rfl, rfl, ?_⟩
    unfold createTransaction
    rw [hnofind, hacct]
    dsimp only
    rw [if_neg (show ¬(acct.status ≠ AccountStatus.ACTIVE) by simp [hactive])]
    rw [if_neg hamt]
  · have hwm := hracewf w oid hw
    refine ⟨w, s0.outbox ++ [mkOutboxRow oid w], hwm.1, hwm.2, ?_⟩
    unfold createTransaction
    rw [hnofind, hacct]
    dsimp only
    rw [if_neg (show ¬(acct.status ≠ AccountStatus.ACTIVE) by simp [hactive])]
    rw [if_neg hamt]

/-- C2: M ≥ 1 CreateTransaction calls with the same
`(account_id, idempotency_key)` — with arbitrary other fields, arbitrary
fresh uuids, and any of them (including the first) losing a concurrent-insert
race and re-reading the winning row — leave exactly one matching transaction
row, all return that same row, and the original row's fields are never
overwritten. -/
theorem ingress_idempotency (s0 : DBState) (calls : List CreateCall)
    (a : UUID) (key : String) (acct : Account)
    (hne : calls ≠ [])
    (hsame : ∀ c ∈ calls, c.req.accountId = a ∧ c.req.idempotencyKey = key)
    (hrace : ∀ c ∈ calls, ∀ w oid, c.raceWinner = some (w, oid) →
      w.accountId = a ∧ w.idempotencyKey = key)
    (hempty : matchingRows s0.transactions a key = [])
    (hacct : findAccount s0.accounts a = some acct)
    (hactive : acct.status = AccountStatus.ACTIVE)
    (hamt : ∀ c ∈ calls.take 1, 0 < c.req.amountCents) :
    ∃ w, w.accountId = a ∧ w.idempotencyKey = key ∧
      (runCreates s0 calls).1 = calls.map (fun _ => Except.ok w) ∧
      matchingRows (runCreates s0 calls).2.transactions a key = [w] := by
  obtain ⟨c, cs, rfl⟩ : ∃ c cs, calls = c :: cs := by
    cases calls with
    | nil => exact absurd rfl hne
    | cons c cs => exact ⟨c, cs, rfl⟩
  have hc := hsame c (List.mem_cons_self c cs)
  have hnofind0 : findByIdemKey s0.transactions a key = none :=
    findByIdemKey_eq_none_of_matching_nil hempty
  have hnofind : findByIdemKey s0.transactions c.req.accountId c.req.idempotencyKey
      = none := by
    rw [hc.1, hc.2]
    exact hnofind0
  have hacct' : findAccount s0.accounts c.req.accountId = some acct := by
    rw [hc.1]
    exact hacct
  have hamt' : ¬(c.req.amountCents ≤ 0) := by
    have := hamt c (by simp)
    omega
  have hracewf : ∀ w oid, c.raceWinner = some (w, oid) →
      w.accountId = c.req.accountId ∧ w.idempotencyKey = c.req.idempotencyKey := by
    intro w oid hwo
    have := hrace c (List.mem_cons_self c cs) w oid hwo
    exact ⟨by rw [this.1, hc.1], by rw [this.2, hc.2]⟩
  obtain ⟨w, ob, hwa, hwk, heq⟩ :=
    createTransaction_first_insert c.txId c.outboxId c.raceWinner
      hnofind hacct' hactive hamt' hracewf
  have hwa' : w.accountId = a := by rw [hwa, hc.1]
  have hwk' : w.idempotencyKey = key := by rw [hwk, hc.2]
  have hfound1 : findByIdemKey (s0.transactions ++ [w]) a key = some w :=
    findByIdemKey_append_singleton hnofind0 ⟨hwa', hwk'⟩
  have hrepl := runCreates_replay cs
    { s0 with transactions := s0.transactions ++ [w], outbox := ob }
    (fun c' hc' => hsame c' (List.mem_cons_of_mem _ hc')) hfound1
  refine ⟨w, hwa', hwk', ?_, ?_⟩
  · unfold runCreates
    rw [heq, hrepl]
    rfl
  · unfold runCreates
    rw [heq, hrepl]
    exact matchingRows_append_singleton hempty ⟨hwa', hwk'⟩

/-- Requests used by the C2 witness: same `(account_id, idempotency_key)`,
differing non-key fields on the replay. -/
def c2Req : CreateTransactionRequest :=
  { accountId := 1, amountCents := 30, currency := "USD",
    type := TransactionType.CREDIT, idempotencyKey := "k2", metadata := none }

/-- Replay request with differing amount and currency. -/
def c2ReqB : CreateTransactionRequest :=
  { c2Req with amountCents := 99, currency := "EUR" }

/-- Call list for the C2 witness. -/
def c2Calls : List CreateCall :=
  [ { req := c2Req, txId := 40, outboxId := 41, raceWinner := none },
    { req := c2ReqB, txId := 42, outboxId := 43, raceWinner := none } ]

/-- Witness for C2 at the concrete state and two calls. -/
theorem ingress_idempotency_witness :
    (c2Calls ≠ []) ∧
    (∀ c ∈ c2Calls, c.req.accountId = 1 ∧ c.req.idempotencyKey = "k2") ∧
    (∀ c ∈ c2Calls, ∀ w oid, c.raceWinner = some (w, oid) →
      w.accountId = 1 ∧ w.idempotencyKey = "k2") ∧
    (matchingRows wState.transactions 1 "k2" = []) ∧
    (findAccount wState.accounts 1 = some wAccount) ∧
    (wAccount.status = AccountStatus.ACTIVE) ∧
    (∀ c ∈ c2Calls.take 1, 0 < c.req.amountCents) ∧
    (∃ w, w.accountId = 1 ∧ w.idempotencyKey = "k2" ∧
      (runCreates wState c2Calls).1 = c2Calls.map (fun _ => Except.ok w) ∧
      matchingRows (runCreates wState c2Calls).2.transactions 1 "k2" = [w]) :=
  ⟨by simp [c2Calls], by decide,
    fun c hc w oid hwo => by fin_cases hc <;> simp [c2Calls] at hwo,
    by decide, by rfl, by rfl, by decide,
    ingress_idempotency wState c2Calls 1 "k2" wAccount (by simp [c2Calls]) (by decide)
      (fun c hc w oid hwo => by fin_cases hc <;> simp [c2Calls] at hwo)
      (by decide) (by rfl) (by rfl) (by decide)⟩

/-! ### Outbox-commit coupling (C6) -/

/-- The coupling invariant: every transaction has exactly one outbox row
referencing it, and every outbox row references an existing transaction. -/
def outboxCoupled (s : DBState) : Prop :=
  (∀ t ∈ s.transactions,
    (s.outbox.filter (fun o => o.aggregateId = t.id)).length = 1) ∧
  (∀ o ∈ s.outbox, ∃ t ∈ s.transactions, t.id = o.aggregateId)

theorem ct_eq_noAccount {s : DBState} {req : CreateTransactionRequest}
    (txId outboxId : UUID) (raceWinner : Option (Transaction × UUID))
    (hnofind : findByIdemKey s.transactions req.accountId req.idempotencyKey = none)
    (hacc : findAccount s.accounts req.accountId = none) :
    createTransaction s req txId outboxId raceWinner
      = (Except.error "account not found", s) := by
  unfold createTransaction
  rw [hnofind, hacc]

theorem ct_eq_inactive {s : DBState} {req : CreateTransactionRequest} {acct : Account}
    (txId outboxId : UUID) (raceWinner : Option (Transaction × UUID))
    (hnofind : findByIdemKey s.transactions req.accountId req.idempotencyKey = none)
    (hacc : findAccount s.accounts req.accountId = some acct)
    (hnact : acct.status ≠ AccountStatus.ACTIVE) :
    createTransaction s req txId outboxId raceWinner
      = (Except.error "account is not active", s) := by
  unfold createTransaction
  rw [hnofind, hacc]
  dsimp only
  rw [if_pos hnact]

theorem ct_eq_badAmount {s : DBState} {req : CreateTransactionRequest} {acct : Account}
    (txId outboxId : UUID) (raceWinner : Option (Transaction × UUID))
    (hnofind : findByIdemKey s.transactions req.accountId req.idempotencyKey = none)
    (hacc : findAccount s.accounts req.accountId = some acct)
    (hact : acct.status = AccountStatus.ACTIVE)
    (hamt : req.amountCents ≤ 0) :
    createTransaction s req txId outboxId raceWinner
      = (Except.error "amount must be positive", s) := by
  unfold createTransaction
  rw [hnofind, hacc]
  dsimp only
  rw [if_neg (show ¬(acct.status ≠ AccountStatus.ACTIVE) by simp [hact])]
  rw [if_pos hamt]

theorem ct_eq_race {s : DBState} {req : CreateTransactionRequest} {acct : Account}
    {w : Transaction} {oid : UUID} (txId outboxId : UUID)
    {raceWinner : Option (Transaction × UUID)}
    (hnofind : findByIdemKey s.transactions req.accountId req.idempotencyKey = none)
    (hacc : findAccount s.accounts req.accountId = some acct)
    (hact : acct.status = AccountStatus.ACTIVE)
    (hamt : ¬(req.amountCents ≤ 0))
    (hrw : raceWinner = some (w, oid)) :
    createTransaction s req txId outboxId raceWinner
      = (Except.ok w,
          { s with
              transactions := s.transactions ++ [w]
              outbox := s.outbox ++ [mkOutboxRow oid w] }) := by
  unfold createTransaction
  rw [hnofind, hacc]
  dsimp only
  rw [if_neg (show ¬(acct.status ≠ AccountStatus.ACTIVE) by simp [hact])]
  rw [if_neg hamt, hrw]

theorem ct_eq_insert {s : DBState} {req : CreateTransactionRequest} {acct : Account}
    (txId outboxId : UUID) {raceWinner : Option (Transaction × UUID)}
    (hnofind : findByIdemKey s.transactions req.accountId req.idempotencyKey = none)
    (hacc : findAccount s.accounts req.accountId = some acct)
    (hact : acct.status = AccountStatus.ACTIVE)
    (hamt : ¬(req.amountCents ≤ 0))
    (hrw : raceWinner = none) :
    createTransaction s req txId outboxId raceWinner
      = (Except.ok (mkTransactionRow txId req),
          { s with
              transactions := s.transactions ++ [mkTransactionRow txId req]
              outbox := s.outbox ++ [mkOutboxRow outboxId (mkTransactionRow txId req)] }) := by
  unfold createTransaction
  rw [hnofind, hacc]
  dsimp only
  rw [if_neg (show ¬(acct.status ≠ AccountStatus.ACTIVE) by simp [hact])]
  rw [if_neg hamt, hrw]

/-- Appending a transaction row together with its outbox row preserves the
coupling invariant, provided the new transaction id is fresh. -/
theorem outboxCoupled_insert {s : DBState} {t : Transaction} {oid : UUID}
    (hinv : outboxCoupled s)
    (htFresh : ∀ t' ∈ s.transactions, t'.id ≠ t.id)
    (hoFresh : ∀ o ∈ s.outbox, o.aggregateId ≠ t.id) :
    outboxCoupled
      { s with
          transactions := s.transactions ++ [t]
          outbox := s.outbox ++ [mkOutboxRow oid t] } := by
  constructor
  · intro t' ht'
    rcases List.mem_append.mp ht' with h | h
    · have hnew : ¬((mkOutboxRow oid t).aggregateId = t'.id) := by
        intro hh
        exact htFresh t' h (by simpa [mkOutboxRow] using hh.symm)
      have hold := hinv.1 t' h
      simp only [List.filter_append, List.length_append]
      rw [hold]
      simp [hnew]
    · have ht'' : t' = t := by simpa using h
      subst ht''
      have hold : (s.outbox.filter (fun o => o.aggregateId = t'.id)).length = 0 := by
        rw [List.length_eq_zero]
        rw [List.filter_eq_nil_iff]
        intro o ho
        simpa using hoFresh o ho
      have hnew : ((mkOutboxRow oid t').aggregateId = t'.id) := by
        simp [mkOutboxRow]
      simp only [List.filter_append, List.length_append]
      rw [hold]
      simp [hnew]
  · intro o ho
    rcases List.mem_append.mp ho with h | h
    · obtain ⟨t', ht', hid⟩ := hinv.2 o h
      exact ⟨t', List.mem_append.mpr (Or.inl ht'), hid⟩
    · have ho' : o = mkOutboxRow oid t := by simpa using h
      subst ho'
      exact ⟨t, List.mem_append.mpr (Or.inr (by simp)), by simp [mkOutboxRow]⟩

/-- C6: a successful CreateTransaction that inserts a new transaction inserts,
in the same DB transaction, exactly one outbox row with aggregate_id the new
transaction id, event type `transaction.created` and status PENDING; on any
error neither the transaction row nor the outbox row persists; and the
coupling invariant (no transaction without its outbox row and vice versa) is
preserved by every call. -/
theorem outbox_commit_coupling (s : DBState) (req : CreateTransactionRequest)
    (txId outboxId : UUID) (raceWinner : Option (Transaction × UUID))
    (htxFresh : ∀ t ∈ s.transactions, t.id ≠ txId)
    (hobFresh : ∀ o ∈ s.outbox, o.aggregateId ≠ txId)
    (hwFresh : ∀ w oid, raceWinner = some (w, oid) →
      (∀ t ∈ s.transactions, t.id ≠ w.id) ∧ (∀ o ∈ s.outbox, o.aggregateId ≠ w.id))
    (hinv : outboxCoupled s) :
    (∀ e, (createTransaction s req txId outboxId raceWinner).1 = Except.error e →
      (createTransaction s req txId outboxId raceWinner).2 = s) ∧
    (findByIdemKey s.transactions req.accountId req.idempotencyKey = none →
      raceWinner = none →
      ∀ t, (createTransaction s req txId outboxId raceWinner).1 = Except.ok t →
        (createTransaction s req txId outboxId raceWinner).2
          = { s with
                transactions := s.transactions ++ [t]
                outbox := s.outbox ++ [mkOutboxRow outboxId t] } ∧
        (mkOutboxRow outboxId t).aggregateId = t.id ∧
        (mkOutboxRow outboxId t).eventType = "transaction.created" ∧
        (mkOutboxRow outboxId t).status = OutboxStatus.PENDING ∧
        ((createTransaction s req txId outboxId raceWinner).2.outbox.filter
          (fun o => o.aggregateId = t.id)).length = 1) ∧
    outboxCoupled (createTransaction s req txId outboxId raceWinner).2 := by
  rcases hfind : findByIdemKey s.transactions req.accountId req.idempotencyKey
      with _ | existing
  case some =>
    have heq := createTransaction_replay txId outboxId raceWinner hfind
    refine ⟨?_, ?_, ?_⟩
    · intro e he
      rw [heq] at he
      exact absurd he (by simp)
    · intro hnone
      exact absurd hnone (by simp)
    · rw [heq]
      exact hinv
  case none =>
    rcases hacc : findAccount s.accounts req.accountId with _ | acct
    case none =>
      have heq := ct_eq_noAccount txId outboxId raceWinner hfind hacc
      refine ⟨?_, ?_, ?_⟩
      · intro e he
        rw [heq]
      · intro _ _ t hok
        rw [heq] at hok
        exact absurd hok (by simp)
      · rw [heq]
        exact hinv
    case some =>
      by_cases hact : acct.status = AccountStatus.ACTIVE
      · by_cases hamt : req.amountCents ≤ 0
        · have heq := ct_eq_badAmount txId outboxId raceWinner hfind hacc hact hamt
          refine ⟨?_, ?_, ?_⟩
          · intro e he
            rw [heq]
          · intro _ _ t hok
            rw [heq] at hok
            exact absurd hok (by simp)
          · rw [heq]
            exact hinv
        · rcases hrw : raceWinner with _ | ⟨w, oid⟩ <;> subst hrw
          · have heq := ct_eq_insert txId outboxId hfind hacc hact hamt rfl
            refine ⟨?_, ?_, ?_⟩
            · intro e he
              rw [heq] at he
              exact absurd he (by simp)
            · intro _ _ t hok
              rw [heq] at hok
              have ht : t = mkTransactionRow txId req := by
                simpa using hok.symm
              subst ht
              refine ⟨by rw [heq], rfl, rfl, rfl, ?_⟩
              rw [heq]
              have htid : (mkTransactionRow txId req).id = txId := rfl
              have hold : (s.outbox.filter
                  (fun o => o.aggregateId = (mkTransactionRow txId req).id)).length = 0 := by
                rw [List.length_eq_zero, List.filter_eq_nil_iff]
                intro o ho
                simpa [htid] using hobFresh o ho
              simp only [List.filter_append, List.length_append]
              rw [hold]
              simp [mkOutboxRow]
            · rw [heq]
              exact outboxCoupled_insert hinv
                (fun t' ht' => htxFresh t' ht')
                (fun o ho => hobFresh o ho)
          · have heq := @ct_eq_race s req acct w oid txId outboxId (some (w, oid)) hfind hacc hact hamt rfl
            have hwf := hwFresh w oid rfl
            refine ⟨?_, ?_, ?_⟩
            · intro e he
              rw [heq] at he
              exact absurd he (by simp)
            · intro _ hnone
              exact absurd hnone (by simp)
            · rw [heq]
              exact outboxCoupled_insert hinv hwf.1 hwf.2
      · have heq := ct_eq_inactive txId outboxId raceWinner hfind hacc hact
        refine ⟨?_, ?_, ?_⟩
        · intro e he
          rw [heq]
        · intro _ _ t hok
          rw [heq] at hok
          exact absurd hok (by simp)
        · rw [heq]
          exact hinv

/-- State satisfying the coupling invariant: `wTxn` with its outbox row. -/
def c6State : DBState :=
  { wState with outbox := [mkOutboxRow 30 wTxn] }

/-- Witness for C6 at the concrete state, a fresh request, and no race. -/
theorem outbox_commit_coupling_witness :
    (∀ t ∈ c6State.transactions, t.id ≠ 40) ∧
    (∀ o ∈ c6State.outbox, o.aggregateId ≠ 40) ∧
    (∀ w oid, (none : Option (Transaction × UUID)) = some (w, oid) →
      (∀ t ∈ c6State.transactions, t.id ≠ w.id) ∧
      (∀ o ∈ c6State.outbox, o.aggregateId ≠ w.id)) ∧
    outboxCoupled c6State ∧
    ((∀ e, (createTransaction c6State c2Req 40 41 none).1 = Except.error e →
      (createTransaction c6State c2Req 40 41 none).2 = c6State) ∧
    (findByIdemKey c6State.transactions c2Req.accountId c2Req.idempotencyKey = none →
      (none : Option (Transaction × UUID)) = none →
      ∀ t, (createTransaction c6State c2Req 40 41 none).1 = Except.ok t →
        (createTransaction c6State c2Req 40 41 none).2
          = { c6State with
                transactions := c6State.transactions ++ [t]
                outbox := c6State.outbox ++ [mkOutboxRow 41 t] } ∧
        (mkOutboxRow 41 t).aggregateId = t.id ∧
        (mkOutboxRow 41 t).eventType = "transaction.created" ∧
        (mkOutboxRow 41 t).status = OutboxStatus.PENDING ∧
        ((createTransaction c6State c2Req 40 41 none).2.outbox.filter
          (fun o => o.aggregateId = t.id)).length = 1) ∧
    outboxCoupled (createTransaction c6State c2Req 40 41 none).2) :=
  ⟨by decide, by decide, fun w oid hwo => by simp at hwo,
    ⟨by decide, by decide⟩,
    outbox_commit_coupling c6State c2Req 40 41 none (by decide) (by decide)
      (fun w oid hwo => by simp at hwo) ⟨by decide, by decide⟩⟩

/-! ### API-key middleware (api/internal/middleware.APIKeyAuth) -/

/-- The request headers the middleware reads (absent header = empty string,
as Go's `Header.Get` returns). -/
structure HttpRequest where
  xApiKey : String
  authorization : String
deriving DecidableEq, Repr

/-- An HTTP response as written by the middleware or a handler. -/
structure HttpResponse where
  status : Nat
  contentType : String
  body : String
deriving DecidableEq, Repr

/-- The middleware's 401 body, byte-for-byte the Go literal
`{"error": "Unauthorized"}`. -/
def unauthorizedBody : String := "\x7b\"error\": \"Unauthorized\"\x7d"

/-- The full 401 response the middleware writes. -/
def unauthorizedResponse : HttpResponse :=
  { status := 401, contentType := "application/json", body := unauthorizedBody }

/-- The credential the middleware compares: the `X-API-Key` header, or, when
that is absent, the `Authorization` header with a `Bearer ` prefix stripped. -/
def presentedKey (r : HttpRequest) : String :=
  if r.xApiKey = "" then
    (if r.authorization.startsWith "Bearer " then
      r.authorization.drop 7
    else r.authorization)
  else r.xApiKey

/-- api/internal/middleware.APIKeyAuth: when a key is configured and the
presented credential mismatches, write the 401 JSON response; otherwise call
the wrapped handler.  An empty configured key disables auth. -/
def apiKeyAuth (expectedKey : String) (next : HttpRequest → HttpResponse)
    (r : HttpRequest) : HttpResponse :=
  if expectedKey = "" then
    next r
  else if presentedKey r ≠ expectedKey then
    unauthorizedResponse
  else
    next r

/-- C9: with a non-empty configured API key, a request whose presented
credential (X-API-Key header, or Authorization Bearer token when that header
is absent) does not equal the key gets the 401 response with body
`{"error": "Unauthorized"}`, and the underlying handler is never invoked: the
response is the same for any two wrapped handlers. -/
theorem api_key_auth_unauthorized (expectedKey : String) (r : HttpRequest)
    (next1 next2 : HttpRequest → HttpResponse)
    (hcfg : expectedKey ≠ "")
    (hbad : presentedKey r ≠ expectedKey) :
    apiKeyAuth expectedKey next1 r = unauthorizedResponse ∧
    apiKeyAuth expectedKey next2 r = unauthorizedResponse ∧
    unauthorizedResponse.status = 401 ∧
    unauthorizedResponse.body = "\x7b\"error\": \"Unauthorized\"\x7d" := by
  unfold apiKeyAuth
  rw [if_neg hcfg, if_pos hbad, if_neg hcfg, if_pos hbad]
  exact ⟨rfl, rfl, rfl, rfl⟩

/-- Witness for C9: configured key "demo-api-key-12345", request with a wrong
X-API-Key, two handlers that would answer differently. -/
theorem api_key_auth_unauthorized_witness :
    ("demo-api-key-12345" ≠ "") ∧
    (presentedKey { xApiKey := "wrong", authorization := "" } ≠ "demo-api-key-12345") ∧
    (apiKeyAuth "demo-api-key-12345" (fun _ => { status := 200, contentType := "text/plain", body := "A" })
        { xApiKey := "wrong", authorization := "" } = unauthorizedResponse ∧
      apiKeyAuth "demo-api-key-12345" (fun _ => { status := 204, contentType := "text/plain", body := "B" })
        { xApiKey := "wrong", authorization := "" } = unauthorizedResponse ∧
      unauthorizedResponse.status = 401 ∧
      unauthorizedResponse.body = "\x7b\"error\": \"Unauthorized\"\x7d") :=
  ⟨by decide, by decide,
    api_key_auth_unauthorized "demo-api-key-12345"
      { xApiKey := "wrong", authorization := "" }
      (fun _ => { status := 200, contentType := "text/plain", body := "A" })
      (fun _ => { status := 204, contentType := "text/plain", body := "B" })
      (by decide) (by decide)⟩

/-! ### ListTransactions handler (api/internal/handler) -/

/-- The handler's limit parsing: absent (`""`), non-numeric, ≤ 0 or > 100 all
fall back to 50. -/
def parseLimit (limitStr : String) : Int :=
  if limitStr ≠ "" then
    match limitStr.toInt? with
    | some l => if 0 < l ∧ l ≤ 100 then l else 50
    | none => 50
  else 50

/-- The handler's offset parsing: absent, non-numeric or negative fall back
to 0. -/
def parseOffset (offsetStr : String) : Int :=
  if offsetStr ≠ "" then
    match offsetStr.toInt? with
    | some o => if 0 ≤ o then o else 0
    | none => 0
  else 0

/-- The handler's account filter: absent or unparsable account_id means no
filter.  `uuidParse` stands for `uuid.Parse`. -/
def parseAccountFilter (uuidParse : String → Option UUID) (accountIDStr : String) :
    Option UUID :=
  if accountIDStr ≠ "" then
    match uuidParse accountIDStr with
    | some accId => some accId
    | none => none
  else none

/-- Response of the ListTransactions endpoint: 200 with the rows and the
echoed limit/offset, or 500 on a service error. -/
inductive ListResponse where
  | ok (transactions : List Transaction) (limit offset : Int)
  | serverError (msg : String)
deriving DecidableEq, Repr

/-- HTTP status of a `ListResponse`. -/
def listStatus : ListResponse → Nat
  | ListResponse.ok _ _ _ => 200
  | ListResponse.serverError _ => 500

/-- api/internal/handler.ListTransactions: parse the three query parameters
leniently, call the service, and answer 200 with the applied limit and offset
(500 only if the service itself fails — there is no 400 path). -/
def listTransactions (uuidParse : String → Option UUID)
    (svc : Option UUID → Int → Int → Except String (List Transaction))
    (accountIDStr limitStr offsetStr : String) : ListResponse :=
  match svc (parseAccountFilter uuidParse accountIDStr)
      (parseLimit limitStr) (parseOffset offsetStr) with
  | Except.ok txs =>
      ListResponse.ok txs (parseLimit limitStr) (parseOffset offsetStr)
  | Except.error _ => ListResponse.serverError "Failed to list transactions"

/-- C10: ListTransactions never rejects its query parameters: limit falls
back to 50 when absent, non-numeric, ≤ 0 or > 100 and is used when in
(0,100]; offset falls back to 0 when absent, non-numeric or negative;
an unparsable account_id yields an unfiltered listing; and when the service
succeeds the endpoint answers 200 echoing the applied limit and offset (no
400 is ever produced). -/
theorem list_transactions_lenient_params (uuidParse : String → Option UUID)
    (svc : Option UUID → Int → Int → Except String (List Transaction))
    (accountIDStr limitStr offsetStr : String) (txs : List Transaction)
    (hsvc : svc (parseAccountFilter uuidParse accountIDStr)
      (parseLimit limitStr) (parseOffset offsetStr) = Except.ok txs) :
    listTransactions uuidParse svc accountIDStr limitStr offsetStr
      = ListResponse.ok txs (parseLimit limitStr) (parseOffset offsetStr) ∧
    listStatus (listTransactions uuidParse svc accountIDStr limitStr offsetStr) = 200 ∧
    (limitStr = "" → parseLimit limitStr = 50) ∧
    (limitStr.toInt? = none → parseLimit limitStr = 50) ∧
    (∀ l, limitStr.toInt? = some l → (l ≤ 0 ∨ 100 < l) → parseLimit limitStr = 50) ∧
    (∀ l, limitStr.toInt? = some l → 0 < l → l ≤ 100 → parseLimit limitStr = l) ∧
    (offsetStr = "" → parseOffset offsetStr = 0) ∧
    (offsetStr.toInt? = none → parseOffset offsetStr = 0) ∧
    (∀ o, offsetStr.toInt? = some o → o < 0 → parseOffset offsetStr = 0) ∧
    (∀ o, offsetStr.toInt? = some o → 0 ≤ o → parseOffset offsetStr = o) ∧
    (uuidParse accountIDStr = none →
      parseAccountFilter uuidParse accountIDStr = none) := by
  have heq : listTransactions uuidParse svc accountIDStr limitStr offsetStr
      = ListResponse.ok txs (parseLimit limitStr) (parseOffset offsetStr) := by
    unfold listTransactions
    rw [hsvc]
  refine ⟨heq, by rw [heq]; rfl, ?_, ?_, ?_, ?_, ?_, ?_, ?_, ?_, ?_⟩
  · intro h
    simp [parseLimit, h]
  · intro h
    by_cases hs : limitStr = ""
    · simp [parseLimit, hs]
    · simp [parseLimit, hs, h]
  · intro l hl hrange
    by_cases hs : limitStr = ""
    · simp [parseLimit, hs]
    · have : ¬(0 < l ∧ l ≤ 100) := by omega
      simp [parseLimit, hs, hl, this]
  · intro l hl h0 h100
    have hs : limitStr ≠ "" := by
      intro hnil
      rw [hnil] at hl
      rw [(rfl : ("" : String).toInt? = none)] at hl
      cases hl
    simp [parseLimit, hs, hl, h0, h100]
  · intro h
    simp [parseOffset, h]
  · intro h
    by_cases hs : offsetStr = ""
    · simp [parseOffset, hs]
    · simp [parseOffset, hs, h]
  · intro o ho hneg
    by_cases hs : offsetStr = ""
    · simp [parseOffset, hs]
    · have : ¬(0 ≤ o) := by omega
      simp [parseOffset, hs, ho, this]
  · intro o ho hpos
    have hs : offsetStr ≠ "" := by
      intro hnil
      rw [hnil] at ho
      rw [(rfl : ("" : String).toInt? = none)] at ho
      cases ho
    simp [parseOffset, hs, ho, hpos]
  · intro h
    by_cases hs : accountIDStr = ""
    · simp [parseAccountFilter, hs]
    · simp [parseAccountFilter, hs, h]

/-- Service stub for the C10 witness: always succeeds with no rows. -/
def c10Svc : Option UUID → Int → Int → Except String (List Transaction) :=
  fun _ _ _ => Except.ok []

/-- uuid.Parse stub for the C10 witness: nothing parses. -/
def c10Parse : String → Option UUID := fun _ => none

/-- Witness for C10: absent account_id, limit "0" (clamped to 50), offset
"-3" (clamped to 0), service succeeding with the empty listing. -/
theorem list_transactions_lenient_params_witness :
    (c10Svc (parseAccountFilter c10Parse "") (parseLimit "0") (parseOffset "-3")
      = Except.ok []) ∧
    (listTransactions c10Parse c10Svc "" "0" "-3"
      = ListResponse.ok [] (parseLimit "0") (parseOffset "-3") ∧
    listStatus (listTransactions c10Parse c10Svc "" "0" "-3") = 200 ∧
    (("0" : String) = "" → parseLimit "0" = 50) ∧
    (("0" : String).toInt? = none → parseLimit "0" = 50) ∧
    (∀ l, ("0" : String).toInt? = some l → (l ≤ 0 ∨ 100 < l) → parseLimit "0" = 50) ∧
    (∀ l, ("0" : String).toInt? = some l → 0 < l → l ≤ 100 → parseLimit "0" = l) ∧
    (("-3" : String) = "" → parseOffset "-3" = 0) ∧
    (("-3" : String).toInt? = none → parseOffset "-3" = 0) ∧
    (∀ o, ("-3" : String).toInt? = some o → o < 0 → parseOffset "-3" = 0) ∧
    (∀ o, ("-3" : String).toInt? = some o → 0 ≤ o → parseOffset "-3" = o) ∧
    (c10Parse "" = none → parseAccountFilter c10Parse "" = none)) :=
  ⟨rfl,
    list_transactions_lenient_params c10Parse c10Svc "" "0" "-3" [] rfl⟩

end TxnSystem
